import Mathlib

/-!
Verification of the escheck repository fragments.

Embedded here are:
* the binding layer of `src/unnamed/part_000` (`panic`, `EsCheck.__ALL_RULES__`,
  `EsCheck.Rule.new`), with the opaque host call `ffi("op_escheck_rule_new", spec)`
  represented by an explicit outcome parameter;
* the `no-ternary` rule of `src/src/rules/no-ternary.js`;
* the rule-registration and dispatch core described by the specification
  (registry with `register` / `lookup` / `allInterestedIn`, dispatcher with
  `runOnNode` / `finish`).  That core has no implementation in the repository,
  so its definitions are modelled from the spec and marked as such.
-/

namespace EsCheck

/-- JSON values, used to model `JSON.stringify(x, null, 2)` inside `panic`. -/
inductive JsonValue where
  | null
  | boolean (b : Bool)
  | number (n : Int)
  | string (s : String)
  | array (items : List JsonValue)
  | object (fields : List (String × JsonValue))

/-- A run of `n` spaces, the indentation JSON.stringify produces for indent 2. -/
def indentStr (n : Nat) : String :=
  String.mk (List.replicate n ' ')

/-- JSON string escaping for the common characters; quote, backslash, newline. -/
def jsonEscapeChar (c : Char) : String :=
  if c = '"' then "\\\""
  else if c = '\\' then "\\\\"
  else if c = '\n' then "\\n"
  else String.mk [c]

/-- A JSON-quoted string literal. -/
def jsonQuote (s : String) : String :=
  "\"" ++ String.join (s.toList.map jsonEscapeChar) ++ "\""

mutual

/-- The serialisation `JSON.stringify(v, null, 2)` at nesting depth `depth` (current indentation
is `2 * depth` spaces; members are indented two further spaces). -/
def jsonStringifyAt (depth : Nat) : JsonValue → String
  | .null => "null"
  | .boolean true => "true"
  | .boolean false => "false"
  | .number n => toString n
  | .string s => jsonQuote s
  | .array [] => "[]"
  | .array (x :: xs) =>
      "[\n" ++ String.intercalate ",\n" (jsonStringifyItems (depth + 1) (x :: xs))
        ++ "\n" ++ indentStr (2 * depth) ++ "]"
  | .object [] => "\x7b\x7d"
  | .object (f :: fs) =>
      "\x7b\n" ++ String.intercalate ",\n" (jsonStringifyFields (depth + 1) (f :: fs))
        ++ "\n" ++ indentStr (2 * depth) ++ "\x7d"

/-- Stringify array items, each on its own indented line. -/
def jsonStringifyItems (depth : Nat) : List JsonValue → List String
  | [] => []
  | v :: vs => (indentStr (2 * depth) ++ jsonStringifyAt depth v) :: jsonStringifyItems depth vs

/-- Stringify object fields, each on its own indented line. -/
def jsonStringifyFields (depth : Nat) : List (String × JsonValue) → List String
  | [] => []
  | f :: fs =>
      (indentStr (2 * depth) ++ jsonQuote f.1 ++ ": " ++ jsonStringifyAt depth f.2)
        :: jsonStringifyFields depth fs

end

/-- JavaScript values as far as `panic` discriminates them.  `null` is a
separate constructor because `typeof null` is `"object"` in JavaScript. -/
inductive JsValue where
  | undefined
  | boolean (b : Bool)
  | number (n : Int)
  | string (s : String)
  | null
  | object (j : JsonValue)

/-- The JavaScript `typeof` operator on the modelled values. -/
def jsTypeof : JsValue → String
  | .undefined => "undefined"
  | .boolean _ => "boolean"
  | .number _ => "number"
  | .string _ => "string"
  | .null => "object"
  | .object _ => "object"

/-- The JavaScript `String(x)` coercion applied by the `Error` constructor to
its message argument. -/
def jsToString : JsValue → String
  | .undefined => "undefined"
  | .boolean true => "true"
  | .boolean false => "false"
  | .number n => toString n
  | .string s => s
  | .null => "null"
  | .object _ => "[object Object]"

/-- The serialisation `JSON.stringify(x, null, 2)` on a JsValue.  `panic` only applies it in the
`typeof x === "object"` branch, i.e. to `null` and to objects; the remaining
cases follow the same serialisation and are unreachable from `panic`. -/
def jsonStringifyV : JsValue → String
  | .null => jsonStringifyAt 0 JsonValue.null
  | .object j => jsonStringifyAt 0 j
  | .boolean b => jsonStringifyAt 0 (JsonValue.boolean b)
  | .number n => jsonStringifyAt 0 (JsonValue.number n)
  | .string s => jsonStringifyAt 0 (JsonValue.string s)
  | .undefined => "undefined"

/-- A thrown JavaScript `Error`, reduced to its message. -/
structure JsError where
  message : String
deriving DecidableEq

/-- The function `panic` from `src/unnamed/part_000`: if `typeof x === "object"` the
argument is replaced by `JSON.stringify(x, null, 2)`, then `new Error(x)` is
thrown (the `Error` constructor coerces its argument with `String(...)`).
The function never returns normally, so its result type is an always-error
`Except`. -/
def panic (x : JsValue) : Except JsError Unit :=
  let x' := if jsTypeof x = "object" then JsValue.string (jsonStringifyV x) else x
  Except.error ⟨jsToString x'⟩

/-- A rule specification object passed to `EsCheck.Rule.new`.  Only its `name`
field is inspected by the binding layer; everything else the object carries is
collapsed into an opaque `payload`. -/
structure RuleSpec where
  name : String
  payload : String
deriving DecidableEq

/-- The state of `EsCheck.__ALL_RULES__`: a JavaScript object used as a map
from rule name to spec, kept as an association list in key-insertion order
(JavaScript objects enumerate string keys in insertion order, and assigning
to an existing key keeps its position). -/
def EsRegistry := List (String × RuleSpec)

instance : DecidableEq EsRegistry := by
  unfold EsRegistry
  infer_instance

/-- JavaScript property assignment `m[k] = v`: overwrite in place when the key
exists, append otherwise. -/
def setKey : EsRegistry → String → RuleSpec → EsRegistry
  | [], k, v => [(k, v)]
  | (k', v') :: rest, k, v =>
      if k' = k then (k, v) :: rest else (k', v') :: setKey rest k v

/-- JavaScript property read `m[k]`, as an `Option` (`none` for `undefined`). -/
def getKey : EsRegistry → String → Option RuleSpec
  | [], _ => none
  | (k', v') :: rest, k => if k' = k then some v' else getKey rest k

/-- The function `EsCheck.Rule.new` from `src/unnamed/part_000`: first stores `spec` into
`EsCheck.__ALL_RULES__[spec.name]`, then performs the opaque host call
`ffi("op_escheck_rule_new", spec)`.  The host call's behaviour is not part of
the fragment, so its outcome is passed in as `ffiResult`; the function returns
the updated registry state together with the call's overall outcome. -/
def ruleNew (ffiResult : Except JsError Unit) (reg : EsRegistry) (spec : RuleSpec) :
    EsRegistry × Except JsError Unit :=
  (setKey reg spec.name spec, ffiResult)

/-- A sequence of `EsCheck.Rule.new` calls in which the host call succeeds,
threaded through the registry state. -/
def registerAll (reg : EsRegistry) : List RuleSpec → EsRegistry
  | [] => reg
  | s :: rest => registerAll (ruleNew (Except.ok ()) reg s).1 rest

theorem getKey_setKey_self (m : EsRegistry) (k : String) (v : RuleSpec) :
    getKey (setKey m k v) k = some v := by
  induction m with
  | nil => simp [setKey, getKey]
  | cons p rest ih =>
      by_cases h : p.1 = k
      · simp [setKey, getKey, h]
      · simp [setKey, getKey, h, ih]

theorem getKey_setKey_ne (m : EsRegistry) (k k' : String) (v : RuleSpec)
    (h : k' ≠ k) : getKey (setKey m k' v) k = getKey m k := by
  induction m with
  | nil => simp [setKey, getKey, h]
  | cons p rest ih =>
      by_cases hp : p.1 = k'
      · simp [setKey, getKey, hp, h]
      · simp [setKey, getKey, hp, ih]

theorem getKey_registerAll_of_not_mem (specs : List RuleSpec) (reg : EsRegistry)
    (k : String) (h : k ∉ specs.map RuleSpec.name) :
    getKey (registerAll reg specs) k = getKey reg k := by
  induction specs generalizing reg with
  | nil => rfl
  | cons s rest ih =>
      simp only [List.map_cons, List.mem_cons, not_or] at h
      rw [registerAll, ih _ h.2, ruleNew, getKey_setKey_ne]
      exact fun hne => h.1 hne.symm

/-- C8: for every input `x`, `panic x` always throws an `Error` and never
returns normally; when `typeof x === "object"` the thrown error's message is
`JSON.stringify(x, null, 2)`, and otherwise it is the string coercion of `x`
itself (the identity on strings). -/
theorem panic_always_throws (x : JsValue) :
    panic x = Except.error
      ⟨if jsTypeof x = "object" then jsonStringifyV x else jsToString x⟩ ∧
    (panic x).isOk = false := by
  cases x <;> simp [panic, jsTypeof, jsToString, Except.isOk, Except.toBool]

/-- C9: `EsCheck.Rule.new` stores the spec into `__ALL_RULES__` under
`spec.name` before the host call, so whatever the host call's outcome — in
particular when it throws — the spec is already recorded in the registry, and
the call's outcome is exactly the host call's outcome. -/
theorem ruleNew_stores_before_ffi (ffiResult : Except JsError Unit)
    (reg : EsRegistry) (spec : RuleSpec) :
    (ruleNew ffiResult reg spec).1 = setKey reg spec.name spec ∧
    getKey (ruleNew ffiResult reg spec).1 spec.name = some spec ∧
    (ruleNew ffiResult reg spec).2 = ffiResult :=
  ⟨rfl, getKey_setKey_self reg spec.name spec, rfl⟩

/-- C1, counterexample: registering two specs named `"r"` in sequence, the
second `EsCheck.Rule.new` call raises no error at all (its outcome is the
host call's `ok`), and the registry afterwards holds the second spec, not the
first — the code silently overwrites. -/
theorem ruleNew_duplicate_cex :
    (ruleNew (Except.ok ()) (ruleNew (Except.ok ()) [] ⟨"r", "first"⟩).1
        ⟨"r", "second"⟩).2 = Except.ok () ∧
    getKey (ruleNew (Except.ok ()) (ruleNew (Except.ok ()) [] ⟨"r", "first"⟩).1
        ⟨"r", "second"⟩).1 "r" = some ⟨"r", "second"⟩ :=
  ⟨rfl, rfl⟩

/-- C1, amended: registering two RuleSpecs with the same name raises no
`DuplicateRule` error — `EsCheck.Rule.new` stores unconditionally, so the
second call's outcome is just the host call's outcome and the name's entry
becomes the second spec, silently overwriting the first. -/
theorem ruleNew_duplicate_overwrites (reg : EsRegistry) (s1 s2 : RuleSpec)
    (f1 f2 : Except JsError Unit) (h : s1.name = s2.name) :
    (ruleNew f2 (ruleNew f1 reg s1).1 s2).2 = f2 ∧
    getKey (ruleNew f2 (ruleNew f1 reg s1).1 s2).1 s1.name = some s2 := by
  refine ⟨rfl, ?_⟩
  rw [h]
  exact getKey_setKey_self _ _ _

/-- Witness for `ruleNew_duplicate_overwrites` at two concrete specs named
`"r"`. -/
theorem ruleNew_duplicate_overwrites_witness :
    (ruleNew (Except.ok ()) (ruleNew (Except.ok ()) [] ⟨"r", "a"⟩).1
        ⟨"r", "b"⟩).2 = Except.ok () ∧
    getKey (ruleNew (Except.ok ()) (ruleNew (Except.ok ()) [] ⟨"r", "a"⟩).1
        ⟨"r", "b"⟩).1 "r" = some ⟨"r", "b"⟩ :=
  ruleNew_duplicate_overwrites [] ⟨"r", "a"⟩ ⟨"r", "b"⟩
    (Except.ok ()) (Except.ok ()) rfl

/-- C3: for every sequence of registrations whose specs have pairwise distinct
names, looking up any registered name in the resulting `__ALL_RULES__` state
returns exactly the spec supplied for it (register followed by lookup is a
round trip; the starting registry state is arbitrary). -/
theorem registerAll_getKey (specs : List RuleSpec) (reg : EsRegistry)
    (hd : (specs.map RuleSpec.name).Nodup) (s : RuleSpec) (hs : s ∈ specs) :
    getKey (registerAll reg specs) s.name = some s := by
  induction specs generalizing reg with
  | nil => cases hs
  | cons sp rest ih =>
      simp only [List.map_cons, List.nodup_cons] at hd
      rcases List.mem_cons.mp hs with rfl | hs
      · rw [registerAll, getKey_registerAll_of_not_mem rest _ _ hd.1, ruleNew,
          getKey_setKey_self]
      · exact ih _ hd.2 hs

/-- Witness for `registerAll_getKey` on a concrete two-element sequence. -/
theorem registerAll_getKey_witness :
    getKey (registerAll [] [⟨"a", "1"⟩, ⟨"b", "2"⟩]) "b" = some ⟨"b", "2"⟩ :=
  registerAll_getKey [⟨"a", "1"⟩, ⟨"b", "2"⟩] [] (by decide) ⟨"b", "2"⟩ (by decide)

/-- A syntax-tree node as the rule and the dispatcher see it: its kind tag
(e.g. `"ConditionalExpression"`) plus an identity so distinct nodes of the
same kind can be told apart.  Position information stays with the external
tree and is not copied. -/
structure Node where
  kind : String
  id : Nat
deriving DecidableEq

/-- One call to `context.report({ node, messageId })`. -/
structure ReportDescriptor where
  node : Node
  messageId : String
deriving DecidableEq

/-- The reporting context a handler receives.  Its only operation used by the
rule is `report`, which is embedded by letting handlers return the ordered
list of report calls they make; the remaining identity of the context is kept
as an opaque tag. -/
structure ESContext where
  tag : Nat
deriving DecidableEq

/-- The `meta.docs` object of an ESLint-style rule. -/
structure ESRuleDocs where
  description : String
  recommended : Bool
  url : String

/-- The `meta` object of an ESLint-style rule. -/
structure ESRuleMeta where
  type : String
  docs : ESRuleDocs
  schema : List JsonValue
  messages : List (String × String)

/-- An ESLint-style rule module: `meta` plus `create(context)`, which returns
a visitor object mapping node-kind keys to handlers.  A handler is embedded
as the ordered list of `context.report` calls it makes on a node. -/
structure ESRule where
  meta : ESRuleMeta
  create : ESContext → List (String × (Node → List ReportDescriptor))

/-- The `no-ternary` rule of `src/src/rules/no-ternary.js`: visitor with the
single key `"ConditionalExpression"`, whose handler reports that node once
with messageId `"noTernaryOperator"`. -/
def noTernary : ESRule :=
  { meta :=
      { type := "suggestion",
        docs :=
          { description := "Disallow ternary operators",
            recommended := false,
            url := "https://eslint.org/docs/rules/no-ternary" },
        schema := [],
        messages := [("noTernaryOperator", "Ternary operator used.")] },
    create := fun _ctx =>
      [("ConditionalExpression",
         fun node => [{ node := node, messageId := "noTernaryOperator" }])] }

/-- C10: for every context, `noTernary.create` returns a visitor whose only
key is `"ConditionalExpression"`, and that key's handler, on any node, calls
`context.report` exactly once, with exactly that node and messageId
`"noTernaryOperator"`; the rule's options schema is empty and it is not
recommended. -/
theorem noTernary_create_spec (ctx : ESContext) :
    noTernary.create ctx =
      [("ConditionalExpression",
         fun node => [{ node := node, messageId := "noTernaryOperator" }])] ∧
    noTernary.meta.schema = [] ∧
    noTernary.meta.docs.recommended = false :=
  ⟨rfl, rfl, rfl⟩

/-- Modelled from the spec: the registry error taxonomy — `DuplicateRule` at
registration time, `UnknownRule` at lookup time. -/
inductive RegistryError where
  | DuplicateRule (name : String)
  | UnknownRule (name : String)
deriving DecidableEq

/-- Modelled from the spec: a RuleDefinition identifies a rule by a unique
name, carries metadata, and maps syntax-node-kind tags to handlers.  A
handler receives a node and either faults with a cause (`Except.error`) or
returns the ordered list of `context.report` calls it made. -/
structure RuleDefinition where
  name : String
  description : String
  recommended : Bool
  handlers : List (String × (Node → Except String (List ReportDescriptor)))

/-- Modelled from the spec: the rule registry, a mapping from rule name to
RuleDefinition kept in registration (insertion) order. -/
abbrev Registry := List RuleDefinition

/-- Modelled from the spec: `register(definition)` fails with `DuplicateRule`
if a rule with the same name already exists, and otherwise appends the
definition (preserving registration order). -/
def Registry.register (reg : Registry) (d : RuleDefinition) :
    Except RegistryError Registry :=
  if reg.any (fun r => r.name = d.name) then
    Except.error (RegistryError.DuplicateRule d.name)
  else
    Except.ok (reg ++ [d])

/-- Modelled from the spec: `lookup(name)` returns the RuleDefinition for
`name`, or fails with `UnknownRule` if absent. -/
def Registry.lookup (reg : Registry) (name : String) :
    Except RegistryError RuleDefinition :=
  match reg.find? (fun r => r.name = name) with
  | some r => Except.ok r
  | none => Except.error (RegistryError.UnknownRule name)

/-- Modelled from the spec: `allInterestedIn(nodeKind)` returns the
RuleDefinitions whose handler mapping contains `nodeKind`, in insertion
order; the empty sequence when none match. -/
def Registry.allInterestedIn (reg : Registry) (kind : String) : Registry :=
  reg.filter (fun r => r.handlers.any (fun p => p.1 = kind))

/-- Modelled from the spec: a Diagnostic carries the rule name, a message
identifier, and a reference to the offending node. -/
structure Diagnostic where
  ruleName : String
  messageId : String
  node : Node
deriving DecidableEq

/-- Modelled from the spec: the dispatch-time error — a handler fault wrapped
as `RuleExecutionFailure` carrying the owning rule's name and the cause. -/
inductive DispatchError where
  | RuleExecutionFailure (ruleName : String) (cause : String)
deriving DecidableEq

/-- Modelled from the spec: the dispatcher's per-traversal state, the
accumulator of Diagnostics reported so far. -/
structure Dispatcher where
  acc : List Diagnostic
deriving DecidableEq

/-- A freshly created dispatcher with an empty accumulator. -/
def Dispatcher.new : Dispatcher := ⟨[]⟩

/-- The handler a rule holds for a node kind, if any. -/
def getHandler (r : RuleDefinition) (kind : String) :
    Option (Node → Except String (List ReportDescriptor)) :=
  (r.handlers.find? (fun p => p.1 = kind)).map (fun p => p.2)

/-- Modelled from the spec: invoke each rule's handler on `node` in order,
appending reported Diagnostics to the accumulator; a handler fault is wrapped
as `RuleExecutionFailure` with the owning rule's name and stops the run at
that rule.  The first component records which rules were invoked (their
names, in order), the second the outcome. -/
def runRules (node : Node) :
    List RuleDefinition → List Diagnostic →
      List String × Except DispatchError (List Diagnostic)
  | [], acc => ([], Except.ok acc)
  | r :: rest, acc =>
      match getHandler r node.kind with
      | none => runRules node rest acc
      | some h =>
          match h node with
          | Except.error cause =>
              ([r.name],
               Except.error (DispatchError.RuleExecutionFailure r.name cause))
          | Except.ok reports =>
              let next := runRules node rest
                (acc ++ reports.map (fun rp => ⟨r.name, rp.messageId, rp.node⟩))
              (r.name :: next.1, next.2)

/-- Modelled from the spec: `runOnNode(node, registry)` asks the registry for
the rules interested in the node's kind and invokes each handler in
registration order; reported diagnostics are appended to the accumulator, a
fault aborts with `RuleExecutionFailure`.  Returns the invoked rule names and
the outcome (the updated dispatcher state). -/
def Dispatcher.runOnNode (d : Dispatcher) (reg : Registry) (node : Node) :
    List String × Except DispatchError Dispatcher :=
  let next := runRules node (Registry.allInterestedIn reg node.kind) d.acc
  (next.1, next.2.map Dispatcher.mk)

/-- Modelled from the spec: `finish()` returns the accumulated sequence of
Diagnostics and resets the accumulator (the returned dispatcher state is
empty again). -/
def Dispatcher.finish (d : Dispatcher) : List Diagnostic × Dispatcher :=
  (d.acc, ⟨[]⟩)

/-- Drive the dispatcher over a list of nodes in traversal order, stopping at
the first dispatch error. -/
def runAll (reg : Registry) (d : Dispatcher) : List Node → Except DispatchError Dispatcher
  | [] => Except.ok d
  | n :: rest =>
      match (d.runOnNode reg n).2 with
      | Except.error e => Except.error e
      | Except.ok d' => runAll reg d' rest

/-- The `no-ternary` rule packaged as a registry RuleDefinition: name, docs
metadata, and the handlers produced by `noTernary.create`, whose report calls
always succeed. -/
def noTernaryDef : RuleDefinition :=
  { name := "no-ternary",
    description := noTernary.meta.docs.description,
    recommended := noTernary.meta.docs.recommended,
    handlers := (noTernary.create ⟨0⟩).map
      (fun p => (p.1, fun node => Except.ok (p.2 node))) }

theorem find?_name_of_mem (name : String) (r : RuleDefinition) :
    ∀ reg : Registry, r ∈ reg → r.name = name →
      List.Pairwise (fun a b : RuleDefinition => a.name ≠ b.name) reg →
      reg.find? (fun x => x.name = name) = some r := by
  intro reg
  induction reg with
  | nil => intro hr; cases hr
  | cons a rest ih =>
      intro hr hname hpw
      rcases List.mem_cons.mp hr with rfl | hr'
      · exact List.find?_cons_of_pos _ (by simp [hname])
      · have ha : ¬ (a.name = name) := by
          have := (List.pairwise_cons.mp hpw).1 r hr'
          rw [hname] at this
          exact this
        rw [List.find?_cons_of_neg _ (by simpa using ha)]
        exact ih hr' hname (List.pairwise_cons.mp hpw).2

/-- C6: `lookup(name)` fails with `UnknownRule name` when no registered rule
bears `name`, and returns exactly that name's RuleDefinition when one does
(registries built by `register` have pairwise distinct names). -/
theorem lookup_spec (reg : Registry) (name : String) :
    ((∀ r ∈ reg, r.name ≠ name) →
      Registry.lookup reg name = Except.error (RegistryError.UnknownRule name)) ∧
    (∀ r ∈ reg, r.name = name →
      List.Pairwise (fun a b : RuleDefinition => a.name ≠ b.name) reg →
      Registry.lookup reg name = Except.ok r) := by
  constructor
  · intro hall
    have hnone : reg.find? (fun x => x.name = name) = none :=
      List.find?_eq_none.mpr (fun r hr => by simpa using hall r hr)
    simp [Registry.lookup, hnone]
  · intro r hr hname hpw
    simp [Registry.lookup, find?_name_of_mem name r reg hr hname hpw]

/-- Witness for `lookup_spec`: on the one-rule registry `[noTernaryDef]`,
looking up an absent name fails with `UnknownRule` and looking up
`"no-ternary"` returns the definition. -/
theorem lookup_spec_witness :
    Registry.lookup [noTernaryDef] "nope" =
      Except.error (RegistryError.UnknownRule "nope") ∧
    Registry.lookup [noTernaryDef] "no-ternary" = Except.ok noTernaryDef := by
  constructor
  · refine (lookup_spec [noTernaryDef] "nope").1 ?_
    intro r hr
    rcases List.mem_cons.mp hr with rfl | h
    · decide
    · cases h
  · exact (lookup_spec [noTernaryDef] "no-ternary").2 noTernaryDef
      (List.mem_cons_self _ _) rfl (List.pairwise_singleton _ _)

/-- C4: `allInterestedIn reg kind` is a subsequence of the registry (so its
elements appear in registration order), its members are exactly the
registered rules whose handler mapping contains `kind`, it is empty — not an
error — when no registered rule declares `kind`, and `register` appends, so
registry order is registration order. -/
theorem allInterestedIn_spec (reg : Registry) (kind : String) :
    List.Sublist (Registry.allInterestedIn reg kind) reg ∧
    (∀ r, r ∈ Registry.allInterestedIn reg kind ↔
      r ∈ reg ∧ kind ∈ r.handlers.map (fun p => p.1)) ∧
    ((∀ r ∈ reg, kind ∉ r.handlers.map (fun p => p.1)) →
      Registry.allInterestedIn reg kind = []) ∧
    (∀ d reg2, Registry.register reg d = Except.ok reg2 → reg2 = reg ++ [d]) := by
  refine ⟨List.filter_sublist reg, ?_, ?_, ?_⟩
  · intro r
    simp [Registry.allInterestedIn, List.mem_filter, List.any_eq_true,
      List.mem_map]
  · intro hall
    refine List.filter_eq_nil_iff.mpr ?_
    intro r hr
    simp only [List.any_eq_true, decide_eq_true_eq, not_exists, not_and]
    intro p hp hpk
    exact hall r hr (List.mem_map.mpr ⟨p, hp, hpk⟩)
  · intro d reg2 hreg
    by_cases hdup : reg.any (fun r => r.name = d.name)
    · simp [Registry.register, hdup] at hreg
    · simp [Registry.register, hdup] at hreg
      exact hreg.symm

/-- Witness for `allInterestedIn_spec`: no rule of `[noTernaryDef]` declares
`"Identifier"`, so the query is empty; and a successful `register` on the
empty registry appends. -/
theorem allInterestedIn_spec_witness :
    Registry.allInterestedIn [noTernaryDef] "Identifier" = [] ∧
    ([noTernaryDef] : Registry) = [] ++ [noTernaryDef] := by
  constructor
  · refine (allInterestedIn_spec [noTernaryDef] "Identifier").2.2.1 ?_
    intro r hr
    rcases List.mem_cons.mp hr with rfl | h
    · simp [noTernaryDef, noTernary]
    · cases h
  · exact (allInterestedIn_spec [] "Identifier").2.2.2 noTernaryDef
      [noTernaryDef] rfl

/-- C7: `finish()` after zero `runOnNode` calls (a fresh dispatcher) returns
the empty sequence of Diagnostics; in general it returns exactly the
accumulated Diagnostics and resets the accumulator to empty. -/
theorem finish_spec (d : Dispatcher) :
    (Dispatcher.finish Dispatcher.new).1 = [] ∧
    Dispatcher.finish d = (d.acc, Dispatcher.new) :=
  ⟨rfl, rfl⟩

theorem runRules_append_fault (node : Node) (r : RuleDefinition)
    (post : List RuleDefinition)
    (h : Node → Except String (List ReportDescriptor)) (cause : String)
    (hrh : getHandler r node.kind = some h)
    (hfault : h node = Except.error cause) :
    ∀ pre : List RuleDefinition,
      (∀ p ∈ pre, ∃ hp reports,
        getHandler p node.kind = some hp ∧ hp node = Except.ok reports) →
      ∀ acc : List Diagnostic,
        runRules node (pre ++ r :: post) acc =
          (pre.map RuleDefinition.name ++ [r.name],
           Except.error (DispatchError.RuleExecutionFailure r.name cause)) := by
  intro pre
  induction pre with
  | nil =>
      intro _ acc
      simp [runRules, hrh, hfault]
  | cons p ps ih =>
      intro hpre acc
      obtain ⟨hp, reports, hph, hpok⟩ := hpre p (List.mem_cons_self p ps)
      have hrec := ih (fun q hq => hpre q (List.mem_cons_of_mem p hq))
      simp only [List.cons_append, runRules, hph, hpok, List.append_eq]
      rw [hrec]
      simp

/-- C5: if, among the rules interested in a node's kind, every rule before
`r` succeeds and `r`'s handler faults with `cause`, then `runOnNode` raises
`RuleExecutionFailure` carrying `r`'s name to the caller, and the rules
invoked for that node are exactly those up to and including `r` — none of the
later interested rules is invoked. -/
theorem runOnNode_fail_fast (d : Dispatcher) (reg : Registry) (node : Node)
    (pre : List RuleDefinition) (r : RuleDefinition) (post : List RuleDefinition)
    (h : Node → Except String (List ReportDescriptor)) (cause : String)
    (hsplit : Registry.allInterestedIn reg node.kind = pre ++ r :: post)
    (hpre : ∀ p ∈ pre, ∃ hp reports,
      getHandler p node.kind = some hp ∧ hp node = Except.ok reports)
    (hrh : getHandler r node.kind = some h)
    (hfault : h node = Except.error cause) :
    (d.runOnNode reg node).2 =
      Except.error (DispatchError.RuleExecutionFailure r.name cause) ∧
    (d.runOnNode reg node).1 = pre.map RuleDefinition.name ++ [r.name] := by
  have hrun := runRules_append_fault node r post h cause hrh hfault pre hpre d.acc
  constructor
  · simp only [Dispatcher.runOnNode, hsplit, hrun, Except.map]
  · simp only [Dispatcher.runOnNode, hsplit, hrun]

/-- A rule whose only handler always faults, used to witness the fail-fast
behaviour. -/
def faultyRule : RuleDefinition :=
  { name := "faulty",
    description := "always faults",
    recommended := false,
    handlers := [("Identifier", fun _ => Except.error "boom")] }

/-- Witness for `runOnNode_fail_fast`: one faulting rule on an
`"Identifier"` node yields `RuleExecutionFailure "faulty" "boom"` and only
that rule was invoked. -/
theorem runOnNode_fail_fast_witness :
    (Dispatcher.runOnNode Dispatcher.new [faultyRule] ⟨"Identifier", 7⟩).2 =
      Except.error (DispatchError.RuleExecutionFailure "faulty" "boom") ∧
    (Dispatcher.runOnNode Dispatcher.new [faultyRule] ⟨"Identifier", 7⟩).1 =
      ["faulty"] := by
  have h := runOnNode_fail_fast Dispatcher.new [faultyRule] ⟨"Identifier", 7⟩
    [] faultyRule [] (fun _ => Except.error "boom") "boom" rfl
    (by intro p hp; cases hp) rfl rfl
  simpa [faultyRule] using h

/-- The node-kind sequence of the C2 scenario, with node identities `1`, `2`,
`3` in traversal order. -/
def c2Nodes : List Node :=
  [⟨"ConditionalExpression", 1⟩, ⟨"Identifier", 2⟩, ⟨"ConditionalExpression", 3⟩]

/-- C2: with the `no-ternary` rule as the single registered rule, running the
dispatcher over nodes of kinds `["ConditionalExpression", "Identifier",
"ConditionalExpression"]` and then `finish()` yields exactly two Diagnostics,
both carrying the rule's name, on the first and third node, in traversal
order. -/
theorem dispatcher_no_ternary_run :
    Registry.register [] noTernaryDef = Except.ok [noTernaryDef] ∧
    (runAll [noTernaryDef] Dispatcher.new c2Nodes).map
        (fun d => (Dispatcher.finish d).1) =
      Except.ok
        [⟨"no-ternary", "noTernaryOperator", ⟨"ConditionalExpression", 1⟩⟩,
         ⟨"no-ternary", "noTernaryOperator", ⟨"ConditionalExpression", 3⟩⟩] :=
  ⟨rfl, rfl⟩

end EsCheck
